import Mathlib

/-!
Verification development for a one-dimensional PISO/SIMPLEC
pressure-velocity-temperature solver written in C++ (files PISO.cpp and a
second unnamed translation unit).  Arrays of doubles are embedded as lists
of exact reals, and every routine of the program is translated into a pure
Lean function on those lists.  Out-of-range vector reads, which the C++
code never performs on the paths modelled here, are rendered with
List.getD and default value 0.
-/

set_option maxHeartbeats 1000000

/-- Shorthand for reading a double vector at an index: v[i] with default 0. -/
def gd (l : List ℝ) (i : ℕ) : ℝ := l.getD i 0

/-!
## The Thomas algorithm (solveTridiagonal)

The C++ routine builds the forward-elimination vectors c_star and d_star,
then back-substitutes.  c_star and d_star are embedded as the recurrences
the forward loop computes, and the back-substitution pass as a recursion
on the distance from the last row.
-/

/-- Forward-elimination c_star of solveTridiagonal:
c_star[0] = c[0]/b[0], c_star[i] = c[i]/(b[i] - a[i]*c_star[i-1]). -/
noncomputable def c_star (a b c : List ℝ) : ℕ → ℝ
  | 0 => gd c 0 / gd b 0
  | n + 1 => gd c (n + 1) / (gd b (n + 1) - gd a (n + 1) * c_star a b c n)

/-- Forward-elimination d_star of solveTridiagonal:
d_star[0] = d[0]/b[0], d_star[i] = (d[i] - a[i]*d_star[i-1])/m with the
same pivot m = b[i] - a[i]*c_star[i-1]. -/
noncomputable def d_star (a b c d : List ℝ) : ℕ → ℝ
  | 0 => gd d 0 / gd b 0
  | n + 1 =>
      (gd d (n + 1) - gd a (n + 1) * d_star a b c d n) /
        (gd b (n + 1) - gd a (n + 1) * c_star a b c n)

/-- The pivot of row i of the forward elimination: b[0] for row 0 and
m = b[i] - a[i]*c_star[i-1] for the later rows. -/
noncomputable def pivot (a b c : List ℝ) : ℕ → ℝ
  | 0 => gd b 0
  | n + 1 => gd b (n + 1) - gd a (n + 1) * c_star a b c n

/-- Back-substitution of solveTridiagonal, indexed by distance from the last
row: backSub n j is x[n-1-j], so backSub n 0 = d_star[n-1] and
x[i] = d_star[i] - c_star[i]*x[i+1] for i < n-1. -/
noncomputable def backSub (a b c d : List ℝ) (n : ℕ) : ℕ → ℝ
  | 0 => d_star a b c d (n - 1)
  | j + 1 =>
      d_star a b c d (n - 1 - (j + 1)) -
        c_star a b c (n - 1 - (j + 1)) * backSub a b c d n j

/-- The Thomas algorithm as in the source: a, b, c are the sub-, main- and
super-diagonal, d the right-hand side; n is b.size(). -/
noncomputable def solveTridiagonal (a b c d : List ℝ) : List ℝ :=
  (List.range b.length).map fun i => backSub a b c d b.length (b.length - 1 - i)

lemma length_solveTridiagonal (a b c d : List ℝ) :
    (solveTridiagonal a b c d).length = b.length := by
  simp [solveTridiagonal]

lemma solveTridiagonal_getD (a b c d : List ℝ) {i : ℕ} (h : i < b.length) :
    gd (solveTridiagonal a b c d) i = backSub a b c d b.length (b.length - 1 - i) := by
  simp [solveTridiagonal, gd, List.getD_eq_getElem?_getD, List.getElem?_map,
    List.getElem?_range h]

lemma solveTridiagonal_last (a b c d : List ℝ) (h : 1 ≤ b.length) :
    gd (solveTridiagonal a b c d) (b.length - 1) = d_star a b c d (b.length - 1) := by
  rw [solveTridiagonal_getD a b c d (by omega)]
  simp [backSub]

lemma solveTridiagonal_step (a b c d : List ℝ) {i : ℕ} (h : i < b.length - 1) :
    gd (solveTridiagonal a b c d) i =
      d_star a b c d i - c_star a b c i * gd (solveTridiagonal a b c d) (i + 1) := by
  have h1 : b.length - 1 - i = (b.length - 1 - (i + 1)) + 1 := by omega
  rw [solveTridiagonal_getD a b c d (by omega), h1]
  show d_star a b c d (b.length - 1 - ((b.length - 1 - (i+1)) + 1)) -
      c_star a b c (b.length - 1 - ((b.length - 1 - (i+1)) + 1)) *
        backSub a b c d b.length (b.length - 1 - (i+1)) = _
  have h2 : b.length - 1 - ((b.length - 1 - (i+1)) + 1) = i := by omega
  rw [h2, solveTridiagonal_getD a b c d (show i + 1 < b.length by omega)]

lemma pivot_mul_c_star (a b c : List ℝ) {i : ℕ} (h : pivot a b c i ≠ 0) :
    pivot a b c i * c_star a b c i = gd c i := by
  cases i with
  | zero =>
      have : gd b 0 ≠ 0 := h
      simp [pivot, c_star, mul_div_cancel₀, this]
  | succ n =>
      have : gd b (n+1) - gd a (n+1) * c_star a b c n ≠ 0 := h
      simp only [pivot, c_star]
      field_simp

lemma pivot_mul_d_star_zero (a b c d : List ℝ) (h : pivot a b c 0 ≠ 0) :
    pivot a b c 0 * d_star a b c d 0 = gd d 0 := by
  have : gd b 0 ≠ 0 := h
  simp [pivot, d_star, mul_div_cancel₀, this]

lemma pivot_mul_d_star_succ (a b c d : List ℝ) {n : ℕ}
    (h : pivot a b c (n + 1) ≠ 0) :
    pivot a b c (n + 1) * d_star a b c d (n + 1) =
      gd d (n + 1) - gd a (n + 1) * d_star a b c d n := by
  have : gd b (n+1) - gd a (n+1) * c_star a b c n ≠ 0 := h
  simp only [pivot, d_star] at *
  field_simp

/-- C1.  solveTridiagonal on four equal-length sequences with nonzero b[0]
and nonzero forward-elimination pivots performs the forward pass
c_star[i] = c[i]/m, d_star[i] = (d[i] - a[i]*d_star[i-1])/m followed by the
backward pass, returns a sequence of length n, and the returned x solves the
tridiagonal system: row 0 is b[0]*x[0] + c[0]*x[1] = d[0], the interior rows
are a[i]*x[i-1] + b[i]*x[i] + c[i]*x[i+1] = d[i], and the last row is
a[n-1]*x[n-2] + b[n-1]*x[n-1] = d[n-1], in exact real arithmetic. -/
theorem solveTridiagonal_solves_system (a b c d : List ℝ) (n : ℕ)
    (ha : a.length = n) (hb : b.length = n) (hc : c.length = n)
    (hd : d.length = n) (hn : 1 ≤ n)
    (hpiv : ∀ i < n, pivot a b c i ≠ 0) :
    (solveTridiagonal a b c d).length = n ∧
    (∀ i, 1 ≤ i → i < n →
        c_star a b c i = gd c i / pivot a b c i ∧
        d_star a b c d i = (gd d i - gd a i * d_star a b c d (i - 1)) / pivot a b c i) ∧
    gd b 0 * gd (solveTridiagonal a b c d) 0 +
        gd c 0 * gd (solveTridiagonal a b c d) 1 = gd d 0 ∧
    (∀ i, 0 < i → i < n - 1 →
        gd a i * gd (solveTridiagonal a b c d) (i - 1) +
          gd b i * gd (solveTridiagonal a b c d) i +
          gd c i * gd (solveTridiagonal a b c d) (i + 1) = gd d i) ∧
    (1 < n →
        gd a (n - 1) * gd (solveTridiagonal a b c d) (n - 2) +
          gd b (n - 1) * gd (solveTridiagonal a b c d) (n - 1) = gd d (n - 1)) := by
  have hlen : (solveTridiagonal a b c d).length = n := by
    rw [length_solveTridiagonal, hb]
  have hstep : ∀ i, i < n - 1 →
      gd (solveTridiagonal a b c d) i =
        d_star a b c d i - c_star a b c i * gd (solveTridiagonal a b c d) (i + 1) :=
    fun i hi => solveTridiagonal_step a b c d (by omega)
  have hlast : gd (solveTridiagonal a b c d) (n - 1) = d_star a b c d (n - 1) := by
    have := solveTridiagonal_last a b c d (by omega)
    rwa [hb] at this
  refine ⟨hlen, ?_, ?_, ?_, ?_⟩
  · intro i h1 _
    obtain ⟨m, rfl⟩ : ∃ m, i = m + 1 := ⟨i - 1, by omega⟩
    exact ⟨rfl, rfl⟩
  · -- row 0
    have hp0 : pivot a b c 0 ≠ 0 := hpiv 0 (by omega)
    have e2 := pivot_mul_d_star_zero a b c d hp0
    have hpb : pivot a b c 0 = gd b 0 := rfl
    rcases Nat.lt_or_ge 1 n with h2 | h2
    · -- n ≥ 2 : x0 = d_star 0 - c_star 0 * x1
      have hx0 := hstep 0 (by omega)
      have e1 := pivot_mul_c_star a b c hp0
      rw [hx0]
      rw [hpb] at e1 e2
      linear_combination e2 - gd (solveTridiagonal a b c d) 1 * e1
    · -- n = 1 : x0 = d_star 0 and x1 is out of range, hence 0
      have hn1 : n = 1 := by omega
      have hx0 : gd (solveTridiagonal a b c d) 0 = d_star a b c d 0 := by
        have := hlast
        rw [hn1] at this
        simpa using this
      have hx1 : gd (solveTridiagonal a b c d) 1 = 0 := by
        simp [gd, List.getD_eq_getElem?_getD,
          List.getElem?_eq_none (show (solveTridiagonal a b c d).length ≤ 1 by omega)]
      rw [hpb] at e2
      rw [hx0, hx1]
      linear_combination e2
  · -- interior rows
    intro i h0 hi
    obtain ⟨m, rfl⟩ : ∃ m, i = m + 1 := ⟨i - 1, by omega⟩
    have hpm : pivot a b c (m + 1) ≠ 0 := hpiv (m + 1) (by omega)
    have e1 := pivot_mul_c_star a b c hpm
    have e2 := pivot_mul_d_star_succ a b c d hpm
    have hxm := hstep m (by omega)
    have hxi := hstep (m + 1) (by omega)
    simp only [Nat.add_sub_cancel]
    rw [hxm, hxi]
    simp only [pivot] at e1 e2
    linear_combination e2 - gd (solveTridiagonal a b c d) (m + 1 + 1) * e1
  · -- last row
    intro h2
    obtain ⟨m, hm⟩ : ∃ m, n = m + 2 := ⟨n - 2, by omega⟩
    have hpm : pivot a b c (m + 1) ≠ 0 := by
      apply hpiv (m + 1); omega
    have e2 := pivot_mul_d_star_succ a b c d hpm
    have hxm := hstep m (by omega)
    have h21 : n - 1 = m + 1 := by omega
    have h22 : n - 2 = m := by omega
    rw [h21] at hlast
    rw [h21, h22, hxm, hlast]
    simp only [pivot] at e2
    linear_combination e2

/-- C1 witness: the theorem applied to the concrete one-row system
[0]x = with b = [2], d = [6], whose pivots are nonzero. -/
theorem solveTridiagonal_solves_system_witness :
    ([(0:ℝ)].length = 1 ∧ [(2:ℝ)].length = 1 ∧ (1:ℕ) ≤ 1 ∧
      (∀ i < 1, pivot [(0:ℝ)] [2] [0] i ≠ 0)) ∧
    ((solveTridiagonal [(0:ℝ)] [2] [0] [6]).length = 1 ∧
      gd [(2:ℝ)] 0 * gd (solveTridiagonal [(0:ℝ)] [2] [0] [6]) 0 +
        gd [(0:ℝ)] 0 * gd (solveTridiagonal [(0:ℝ)] [2] [0] [6]) 1 = gd [(6:ℝ)] 0) := by
  have hpiv : ∀ i < 1, pivot [(0:ℝ)] [2] [0] i ≠ 0 := by
    intro i hi
    interval_cases i
    simp [pivot, gd]
  have h := solveTridiagonal_solves_system [(0:ℝ)] [2] [0] [6] 1
    rfl rfl rfl rfl (le_refl 1) hpiv
  exact ⟨⟨rfl, rfl, le_refl 1, hpiv⟩, h.1, h.2.2.1⟩

/-!
## Liquid sodium property functions

The repository holds three families of temperature-to-property functions
with identical correlation formulas:
 - the namespace liquid_sodium of PISO.cpp, whose four functions print a
   warning when T is below the solidification temperature 370.87 K;
 - the free functions rho_Na_l, k_Na_l, Cp_Na_l, mu_Na of PISO.cpp, which
   never print;
 - the namespace liquid_sodium of the unnamed translation unit, which
   never prints either.
Each function is embedded as the pair (diagnostics printed to stdout,
returned value).  pow(x, 0.5) is embedded as Real.sqrt x, exact on the
nonnegative arguments the correlations use.
-/

/-- A diagnostic message printed to stdout by a property function. -/
inductive Diag
  | belowSolid (T : ℝ)

/-- Critical temperature of sodium [K] (T_Na_crit / liquid_sodium::Tcrit). -/
def Tcrit : ℝ := 2509.46

/-- Solidification temperature [K] (liquid_sodium::Tsolid of PISO.cpp). -/
def Tsolid : ℝ := 370.87

/-- Density correlation for liquid sodium [kg/m^3]. -/
noncomputable def rhoVal (T : ℝ) : ℝ :=
  219.0 + 275.32 * (1.0 - T / Tcrit) + 511.58 * Real.sqrt (1.0 - T / Tcrit)

/-- Thermal-conductivity correlation for liquid sodium. -/
noncomputable def kVal (T : ℝ) : ℝ :=
  124.67 - 0.11381 * T + 5.5226e-5 * T * T - 1.1842e-8 * T * T * T

/-- Specific-heat correlation for liquid sodium. -/
noncomputable def cpVal (T : ℝ) : ℝ :=
  1436.72 - 0.58 * (T - 273.15) + 4.627e-4 * (T - 273.15) * (T - 273.15)

/-- Dynamic-viscosity correlation for liquid sodium (Shpilrain et al.). -/
noncomputable def muVal (T : ℝ) : ℝ :=
  Real.exp (-6.4406 - 0.3958 * Real.log T + 556.835 / T)

namespace liquid_sodium

/-- liquid_sodium::rho of PISO.cpp: warns below Tsolid, returns the
density correlation. -/
noncomputable def rho (T : ℝ) : List Diag × ℝ :=
  (if T < Tsolid then [Diag.belowSolid T] else [], rhoVal T)

/-- liquid_sodium::k of PISO.cpp: warns below Tsolid, returns the
conductivity correlation. -/
noncomputable def k (T : ℝ) : List Diag × ℝ :=
  (if T < Tsolid then [Diag.belowSolid T] else [], kVal T)

/-- liquid_sodium::cp of PISO.cpp: warns below Tsolid, returns the
specific-heat correlation. -/
noncomputable def cp (T : ℝ) : List Diag × ℝ :=
  (if T < Tsolid then [Diag.belowSolid T] else [], cpVal T)

/-- liquid_sodium::mu of PISO.cpp: warns below Tsolid, returns the
viscosity correlation. -/
noncomputable def mu (T : ℝ) : List Diag × ℝ :=
  (if T < Tsolid then [Diag.belowSolid T] else [], muVal T)

end liquid_sodium

/-- rho_Na_l of PISO.cpp: same density correlation, never prints. -/
noncomputable def rho_Na_l (T : ℝ) : List Diag × ℝ := ([], rhoVal T)

/-- k_Na_l of PISO.cpp: same conductivity correlation, never prints. -/
noncomputable def k_Na_l (T : ℝ) : List Diag × ℝ := ([], kVal T)

/-- Cp_Na_l of PISO.cpp: same specific-heat correlation, never prints. -/
noncomputable def Cp_Na_l (T : ℝ) : List Diag × ℝ := ([], cpVal T)

/-- mu_Na of PISO.cpp: same viscosity correlation, never prints. -/
noncomputable def mu_Na (T : ℝ) : List Diag × ℝ := ([], muVal T)

/-- C7 counterexample: the free property function rho_Na_l, called at
T = 300 K, which is strictly below the solidification temperature 370.87 K,
emits no warning, refuting the claim that each fluid property function
warns exactly when T is below 370.87. -/
theorem property_warning_counterexample :
    ¬ (((rho_Na_l 300).1 ≠ []) ↔ (300 : ℝ) < 370.87) := by
  intro h
  have h2 : (300 : ℝ) < 370.87 := by norm_num
  have h3 : (rho_Na_l 300).1 ≠ [] := h.mpr h2
  exact h3 rfl

/-- C7 amended: the four liquid_sodium property functions of PISO.cpp emit
the below-solidification warning if and only if T is strictly below
370.87 K and in every case return the value of their correlation formula,
while the free functions rho_Na_l, k_Na_l, Cp_Na_l, mu_Na (and the
warning-free liquid_sodium namespace of the unnamed unit, embedded by the
same pairs) never emit a warning and also always return the correlation
value. -/
theorem property_warning_iff_below_solidification (T : ℝ) :
    (((liquid_sodium.rho T).1 ≠ []) ↔ T < 370.87) ∧
    (((liquid_sodium.k T).1 ≠ []) ↔ T < 370.87) ∧
    (((liquid_sodium.cp T).1 ≠ []) ↔ T < 370.87) ∧
    (((liquid_sodium.mu T).1 ≠ []) ↔ T < 370.87) ∧
    (liquid_sodium.rho T).2 = rhoVal T ∧
    (liquid_sodium.k T).2 = kVal T ∧
    (liquid_sodium.cp T).2 = cpVal T ∧
    (liquid_sodium.mu T).2 = muVal T ∧
    (rho_Na_l T).1 = [] ∧ (k_Na_l T).1 = [] ∧
    (Cp_Na_l T).1 = [] ∧ (mu_Na T).1 = [] ∧
    (rho_Na_l T).2 = rhoVal T ∧ (k_Na_l T).2 = kVal T ∧
    (Cp_Na_l T).2 = cpVal T ∧ (mu_Na T).2 = muVal T := by
  have hs : Tsolid = 370.87 := rfl
  refine ⟨?_, ?_, ?_, ?_, rfl, rfl, rfl, rfl, rfl, rfl, rfl, rfl, rfl, rfl, rfl, rfl⟩ <;>
    · constructor
      · intro h
        by_contra hT
        rw [not_lt] at hT
        apply h
        simp [liquid_sodium.rho, liquid_sodium.k, liquid_sodium.cp, liquid_sodium.mu,
          if_neg (not_lt.mpr (hs ▸ hT))]
      · intro h
        simp [liquid_sodium.rho, liquid_sodium.k, liquid_sodium.cp, liquid_sodium.mu,
          if_pos (hs ▸ h)]

/-- Below 219, above the viscosity: the density correlation at 600 K
exceeds 219 because both temperature-dependent terms are nonnegative. -/
lemma rhoVal_600_gt : (219 : ℝ) < rhoVal 600 := by
  have h1 : (0:ℝ) ≤ Real.sqrt (1.0 - 600 / 2509.46) := Real.sqrt_nonneg _
  unfold rhoVal Tcrit
  nlinarith

/-- The viscosity correlation at 600 K is below one: the exponent is
negative since log 600 is positive and 556.835/600 < 6.4406. -/
lemma muVal_600_lt_one : muVal 600 < 1 := by
  unfold muVal
  rw [Real.exp_lt_one_iff]
  have hl : 0 < Real.log 600 := Real.log_pos (by norm_num)
  nlinarith

/-!
## The PISO solver of PISO.cpp

The per-timestep solver state consists of the velocity, pressure,
ghost-padded pressure storage and lagged momentum diagonal bU, together
with the residual maxErr and the inner-iteration counter.  The grid size,
physical constants, boundary values, iteration limits and the property
functions the assemblies call are collected in PisoParams; the property
functions are parameters so that every theorem below holds for arbitrary
correlations.  p_padded[j] of the source is p_storage[j+1], so the
four-point Rhie-Chow stencils are written directly on p_storage indices.
The omp-parallel assembly loops read a frozen snapshot of the previous
stage's arrays and write disjoint entries, and are embedded as pure maps
over the index range.
-/

/-- Compile-time configuration and property correlations of the solver. -/
structure PisoParams where
  N : ℕ
  dz : ℝ
  dt : ℝ
  K : ℝ
  CF : ℝ
  rc : ℝ
  u_inlet : ℝ
  u_outlet : ℝ
  p_outlet : ℝ
  tol : ℝ
  tot_iter : ℕ
  corr_iter : ℕ
  rho : ℝ → ℝ
  mu : ℝ → ℝ
  kcond : ℝ → ℝ
  cp : ℝ → ℝ
  Sm : List ℝ
  Su : List ℝ
  St : List ℝ

/-- The mutable fields of the inner pressure-velocity loop. -/
structure PisoState where
  u : List ℝ
  p : List ℝ
  pstorage : List ℝ
  bU : List ℝ
  maxErr : ℝ
  iter : ℕ

/-- Rhie-Chow face correction at the west face of cell i
(rhie_chow_l of the source, written on p_storage indices:
p_padded[i-2] is p_storage[i-1] and so on). -/
noncomputable def rhie_chow_l (P : PisoParams) (bU pst : List ℝ) (i : ℕ) : ℝ :=
  -(1 / gd bU (i - 1) + 1 / gd bU i) / (8 * P.dz) *
    (gd pst (i - 1) - 3 * gd pst i + 3 * gd pst (i + 1) - gd pst (i + 2))

/-- Rhie-Chow face correction at the east face of cell i. -/
noncomputable def rhie_chow_r (P : PisoParams) (bU pst : List ℝ) (i : ℕ) : ℝ :=
  -(1 / gd bU (i + 1) + 1 / gd bU i) / (8 * P.dz) *
    (gd pst i - 3 * gd pst (i + 1) + 3 * gd pst (i + 2) - gd pst (i + 3))

/-- West face velocity: linear interpolation plus Rhie-Chow correction. -/
noncomputable def u_l_face (P : PisoParams) (u bU pst : List ℝ) (i : ℕ) : ℝ :=
  0.5 * (gd u (i - 1) + gd u i) + P.rc * rhie_chow_l P bU pst i

/-- East face velocity: linear interpolation plus Rhie-Chow correction. -/
noncomputable def u_r_face (P : PisoParams) (u bU pst : List ℝ) (i : ℕ) : ℝ :=
  0.5 * (gd u i + gd u (i + 1)) + P.rc * rhie_chow_r P bU pst i

/-- West face mass flux F_l = rho_l * u_l_face with upwind density
(rho_L when u_l_face >= 0, else rho_P). -/
noncomputable def F_l (P : PisoParams) (T u bU pst : List ℝ) (i : ℕ) : ℝ :=
  (if 0 ≤ u_l_face P u bU pst i then P.rho (gd T (i - 1)) else P.rho (gd T i)) *
    u_l_face P u bU pst i

/-- East face mass flux F_r = rho_r * u_r_face with upwind density
(rho_P when u_r_face >= 0, else rho_R). -/
noncomputable def F_r (P : PisoParams) (T u bU pst : List ℝ) (i : ℕ) : ℝ :=
  (if 0 ≤ u_r_face P u bU pst i then P.rho (gd T i) else P.rho (gd T (i + 1))) *
    u_r_face P u bU pst i

/-- Interior momentum sub-diagonal of PISO.cpp:
aU[i] = -max(F_l, 0) - D_l with D_l the viscosity average over dz. -/
noncomputable def mom_aU_int (P : PisoParams) (T u bU pst : List ℝ) (i : ℕ) : ℝ :=
  -max (F_l P T u bU pst i) 0 - 0.5 * (P.mu (gd T i) + P.mu (gd T (i - 1))) / P.dz

/-- Interior momentum super-diagonal of PISO.cpp:
cU[i] = max(-F_r, 0) - D_r. -/
noncomputable def mom_cU_int (P : PisoParams) (T u bU pst : List ℝ) (i : ℕ) : ℝ :=
  max (-F_r P T u bU pst i) 0 - 0.5 * (P.mu (gd T i) + P.mu (gd T (i + 1))) / P.dz

/-- Interior momentum diagonal of PISO.cpp: convective split, transient
inertia, both diffusive conductances, Darcy and Forchheimer terms. -/
noncomputable def mom_bU_int (P : PisoParams) (T u bU pst : List ℝ) (i : ℕ) : ℝ :=
  (max (F_r P T u bU pst i) 0 - max (-F_l P T u bU pst i) 0) +
    P.rho (gd T i) * P.dz / P.dt +
    0.5 * (P.mu (gd T i) + P.mu (gd T (i - 1))) / P.dz +
    0.5 * (P.mu (gd T i) + P.mu (gd T (i + 1))) / P.dz +
    P.mu (gd T i) / P.K * P.dz +
    P.CF * P.mu (gd T i) * P.dz / Real.sqrt P.K * |gd u i|

/-- Interior momentum right-hand side of PISO.cpp: central pressure
gradient, transient term and momentum source. -/
noncomputable def mom_dU_int (P : PisoParams) (T u p : List ℝ) (i : ℕ) : ℝ :=
  -0.5 * (gd p (i + 1) - gd p (i - 1)) + P.rho (gd T i) * gd u i * P.dz / P.dt +
    gd P.Su i * P.dz

/-- Dirichlet boundary diagonal at the inlet:
bU[0] = rho(T[0])*dz/dt + 2*(mu(T[0])/dz). -/
noncomputable def mom_b0 (P : PisoParams) (T : List ℝ) : ℝ :=
  P.rho (gd T 0) * P.dz / P.dt + 2 * (P.mu (gd T 0) / P.dz)

/-- Dirichlet boundary diagonal at the outlet:
bU[N-1] = rho(T[N-1])*dz/dt + 2*(mu(T[N-1])/dz). -/
noncomputable def mom_bN (P : PisoParams) (T : List ℝ) : ℝ :=
  P.rho (gd T (P.N - 1)) * P.dz / P.dt + 2 * (P.mu (gd T (P.N - 1)) / P.dz)

/-- Assembled momentum sub-diagonal: interior loop entries with aU[N-1]
overwritten to 0 by the boundary rows and aU[0] never written (0). -/
noncomputable def mom_aU (P : PisoParams) (T u bU pst : List ℝ) : List ℝ :=
  (List.range P.N).map fun i =>
    if i = P.N - 1 then 0 else if i = 0 then 0 else mom_aU_int P T u bU pst i

/-- Assembled momentum diagonal: interior entries with the two Dirichlet
boundary rows overwritten last. -/
noncomputable def mom_bU (P : PisoParams) (T u bU pst : List ℝ) : List ℝ :=
  (List.range P.N).map fun i =>
    if i = P.N - 1 then mom_bN P T else if i = 0 then mom_b0 P T
    else mom_bU_int P T u bU pst i

/-- Assembled momentum super-diagonal: cU[0] overwritten to 0 by the
boundary row, cU[N-1] never written (0). -/
noncomputable def mom_cU (P : PisoParams) (T u bU pst : List ℝ) : List ℝ :=
  (List.range P.N).map fun i =>
    if i = P.N - 1 then 0 else if i = 0 then 0 else mom_cU_int P T u bU pst i

/-- Assembled momentum right-hand side with the Dirichlet boundary rows
dU[0] = bU[0]*u_inlet and dU[N-1] = bU[N-1]*u_outlet. -/
noncomputable def mom_dU (P : PisoParams) (T u bU pst p : List ℝ) : List ℝ :=
  (List.range P.N).map fun i =>
    if i = P.N - 1 then mom_bN P T * P.u_outlet
    else if i = 0 then mom_b0 P T * P.u_inlet
    else mom_dU_int P T u p i

/-- The momentum predictor of PISO.cpp: assemble the four momentum arrays
from the current fields and the lagged bU, solve, store the new velocity
and retain the freshly assembled diagonal as the new lagged bU. -/
noncomputable def momentum_predictor (P : PisoParams) (T : List ℝ) (s : PisoState) :
    PisoState :=
  { s with
    u := solveTridiagonal (mom_aU P T s.u s.bU s.pstorage) (mom_bU P T s.u s.bU s.pstorage)
          (mom_cU P T s.u s.bU s.pstorage) (mom_dU P T s.u s.bU s.pstorage s.p)
    bU := mom_bU P T s.u s.bU s.pstorage }

/-- West face conductance of the pressure-correction equation:
E_l = averaged density * averaged 1/bU / dz. -/
noncomputable def E_l (P : PisoParams) (T bU : List ℝ) (i : ℕ) : ℝ :=
  (0.5 * (P.rho (gd T (i - 1)) + P.rho (gd T i))) *
    (0.5 * (1 / gd bU (i - 1) + 1 / gd bU i)) / P.dz

/-- East face conductance of the pressure-correction equation. -/
noncomputable def E_r (P : PisoParams) (T bU : List ℝ) (i : ℕ) : ℝ :=
  (0.5 * (P.rho (gd T i) + P.rho (gd T (i + 1)))) *
    (0.5 * (1 / gd bU i + 1 / gd bU (i + 1))) / P.dz

/-- Predicted west face mass flux mdot_l_star with strict upwind split. -/
noncomputable def mdot_l_star (P : PisoParams) (T u bU pst : List ℝ) (i : ℕ) : ℝ :=
  (if 0 < u_l_face P u bU pst i then P.rho (gd T (i - 1)) else P.rho (gd T i)) *
    u_l_face P u bU pst i

/-- Predicted east face mass flux mdot_r_star with strict upwind split. -/
noncomputable def mdot_r_star (P : PisoParams) (T u bU pst : List ℝ) (i : ℕ) : ℝ :=
  (if 0 < u_r_face P u bU pst i then P.rho (gd T i) else P.rho (gd T (i + 1))) *
    u_r_face P u bU pst i

/-- The continuity (pressure-correction) solve of PISO.cpp: assemble the
symmetric conductance matrix and the mass-imbalance right-hand side with
the zero-gradient inlet and zero-correction outlet rows, and solve for
p_prime. -/
noncomputable def continuity_pprime (P : PisoParams) (T : List ℝ) (s : PisoState) :
    List ℝ :=
  solveTridiagonal
    ((List.range P.N).map fun i =>
      if i = P.N - 1 then 0 else if i = 0 then 0 else -E_l P T s.bU i)
    ((List.range P.N).map fun i =>
      if i = P.N - 1 then 1 else if i = 0 then 1
      else E_l P T s.bU i + E_r P T s.bU i)
    ((List.range P.N).map fun i =>
      if i = P.N - 1 then 0 else if i = 0 then -1 else -E_r P T s.bU i)
    ((List.range P.N).map fun i =>
      if i = P.N - 1 then 0 else if i = 0 then 0
      else gd P.Sm i * P.dz -
        (mdot_r_star P T s.u s.bU s.pstorage i - mdot_l_star P T s.u s.bU s.pstorage i))

/-- The pressure update loop p[i] += p_prime[i] of the pressure corrector. -/
def update_p (p p_prime : List ℝ) : List ℝ :=
  List.zipWith (fun x y => x + y) p p_prime

/-- The loop writing the updated pressure into the ghost-padded storage:
p_storage[i+1] = p[i] for i = 0..N-1. -/
def storage_interior (st pnew : List ℝ) (N : ℕ) : List ℝ :=
  (List.range N).foldl (fun acc i => acc.set (i + 1) (gd pnew i)) st

/-- The full ghost-buffer refresh of the pressure corrector: copy the
interior, mirror the first interior value into the inlet ghost, set the
outlet ghost to the configured outlet pressure. -/
def update_storage (st pnew : List ℝ) (N : ℕ) (p_out : ℝ) : List ℝ :=
  ((storage_interior st pnew N).set 0 (gd (storage_interior st pnew N) 1)).set
    (N + 1) p_out

/-- The convergence residual of one velocity-corrector sweep: maxErr is
reset to 0 and accumulated as max(maxErr, |u_new - u_old|) over the
interior cells 1..N-2. -/
def interior_max_err (N : ℕ) (unew uold : List ℝ) : ℝ :=
  ((List.range' 1 (N - 2)).map fun i => |gd unew i - gd uold i|).foldl max 0

/-- One corrector round of PISO.cpp: continuity solve, pressure and ghost
buffer update, interior velocity correction and the fresh residual. -/
noncomputable def corrector_round (P : PisoParams) (T : List ℝ) (s : PisoState) :
    PisoState :=
  { s with
    p := update_p s.p (continuity_pprime P T s)
    pstorage := update_storage s.pstorage (update_p s.p (continuity_pprime P T s))
      P.N P.p_outlet
    u := (List.range P.N).map fun i =>
      if 1 ≤ i ∧ i < P.N - 1 then
        gd s.u i -
          (gd (continuity_pprime P T s) (i + 1) - gd (continuity_pprime P T s) (i - 1)) /
            (2 * P.dz * gd s.bU i)
      else gd s.u i
    maxErr := interior_max_err P.N
      ((List.range P.N).map fun i =>
        if 1 ≤ i ∧ i < P.N - 1 then
          gd s.u i -
            (gd (continuity_pprime P T s) (i + 1) - gd (continuity_pprime P T s) (i - 1)) /
              (2 * P.dz * gd s.bU i)
        else gd s.u i)
      s.u }

/-- One iteration of the inner PISO loop: one momentum predictor, then
corr_iter corrector rounds, then iter++. -/
noncomputable def inner_body (P : PisoParams) (T : List ℝ) (s : PisoState) : PisoState :=
  let s2 := (corrector_round P T)^[P.corr_iter] (momentum_predictor P T s)
  { s2 with iter := s2.iter + 1 }

/-- The guard of the inner while loop: iter < tot_iter and maxErr > tol. -/
def piso_guard (P : PisoParams) (s : PisoState) : Prop :=
  s.iter < P.tot_iter ∧ P.tol < s.maxErr

noncomputable instance (P : PisoParams) (s : PisoState) : Decidable (piso_guard P s) :=
  instDecidableAnd

/-- The inner while loop, expressed with explicit fuel; because every body
increments iter and the guard requires iter < tot_iter, fuel tot_iter is
enough from iter = 0 (proved below). -/
noncomputable def piso_loop (P : PisoParams) (T : List ℝ) : ℕ → PisoState → PisoState
  | 0, s => s
  | f + 1, s => if piso_guard P s then piso_loop P T f (inner_body P T s) else s

/-!
## The ghost-padded pressure buffer (C5)
-/

lemma storage_interior_succ (st pnew : List ℝ) (n : ℕ) :
    storage_interior st pnew (n + 1) =
      (storage_interior st pnew n).set (n + 1) (gd pnew n) := by
  rw [storage_interior, List.range_succ, List.foldl_append]
  rfl

lemma length_storage_interior (st pnew : List ℝ) (N : ℕ) :
    (storage_interior st pnew N).length = st.length := by
  induction N with
  | zero => rfl
  | succ n ih =>
      rw [storage_interior_succ, List.length_set]
      exact ih

lemma storage_interior_getD (st pnew : List ℝ) {N i : ℕ} (hi : i < N)
    (hlen : i + 1 < st.length) :
    gd (storage_interior st pnew N) (i + 1) = gd pnew i := by
  induction N with
  | zero => omega
  | succ n ih =>
      rw [storage_interior_succ]
      rcases Nat.lt_or_ge i n with h | h
      · have hne : n + 1 ≠ i + 1 := by omega
        rw [gd, List.getD_eq_getElem?_getD, List.getElem?_set_ne hne]
        rw [← List.getD_eq_getElem?_getD, ← gd]
        exact ih h
      · have hin : i = n := by omega
        subst hin
        have hl2 : i + 1 < (storage_interior st pnew i).length := by
          rw [length_storage_interior]; exact hlen
        rw [gd, List.getD_eq_getElem?_getD,
          List.getElem?_set_eq_of_lt (gd pnew i) hl2]
        rfl

lemma storage_interior_getD_zero (st pnew : List ℝ) (N : ℕ) :
    gd (storage_interior st pnew N) 0 = gd st 0 := by
  induction N with
  | zero => rfl
  | succ n ih =>
      rw [storage_interior_succ]
      rw [gd, List.getD_eq_getElem?_getD, List.getElem?_set_ne (by omega)]
      rw [← List.getD_eq_getElem?_getD, ← gd]
      exact ih

/-- C5.  Immediately after the pressure update of the corrector, the
ghost-padded pressure storage agrees with the updated pressure on every
interior index (p_storage[i+1] = p[i]), its inlet ghost p_storage[0]
mirrors the first interior value p[0], and its outlet ghost p_storage[N+1]
is the configured outlet pressure. -/
theorem pressure_ghost_buffer_invariant (p pp st : List ℝ) (N : ℕ) (p_out : ℝ)
    (hp : p.length = N) (hpp : pp.length = N) (hst : st.length = N + 2)
    (hN : 1 ≤ N) :
    (∀ i < N, gd (update_storage st (update_p p pp) N p_out) (i + 1) =
        gd (update_p p pp) i) ∧
    gd (update_storage st (update_p p pp) N p_out) 0 = gd (update_p p pp) 0 ∧
    gd (update_storage st (update_p p pp) N p_out) (N + 1) = p_out := by
  set pnew := update_p p pp with hpnew
  have hlen1 : (storage_interior st pnew N).length = N + 2 := by
    rw [length_storage_interior, hst]
  have hset1 : ((storage_interior st pnew N).set 0
      (gd (storage_interior st pnew N) 1)).length = N + 2 := by
    rw [List.length_set, hlen1]
  have hint : ∀ i < N, gd (storage_interior st pnew N) (i + 1) = gd pnew i :=
    fun i hi => storage_interior_getD st pnew hi (by omega)
  refine ⟨?_, ?_, ?_⟩
  · intro i hi
    rw [gd, List.getD_eq_getElem?_getD, update_storage,
      List.getElem?_set_ne (by omega : N + 1 ≠ i + 1),
      List.getElem?_set_ne (by omega : 0 ≠ i + 1),
      ← List.getD_eq_getElem?_getD, ← gd]
    exact hint i hi
  · rw [gd, List.getD_eq_getElem?_getD, update_storage,
      List.getElem?_set_ne (by omega : N + 1 ≠ 0),
      List.getElem?_set_eq_of_lt _ (by omega : 0 < (storage_interior st pnew N).length)]
    have h1 := hint 0 (by omega)
    simpa [gd, List.getD_eq_getElem?_getD] using h1
  · rw [gd, List.getD_eq_getElem?_getD, update_storage,
      List.getElem?_set_eq_of_lt _ (by rw [hset1]; omega)]
    rfl

/-- C5 witness: the invariant at the concrete update with N = 1,
p = [10], p_prime = [5], storage = [0, 0, 0] and outlet pressure 7. -/
theorem pressure_ghost_buffer_invariant_witness :
    ([(10:ℝ)].length = 1 ∧ [(5:ℝ)].length = 1 ∧ [(0:ℝ), 0, 0].length = 1 + 2 ∧ 1 ≤ 1) ∧
    gd (update_storage [(0:ℝ), 0, 0] (update_p [10] [5]) 1 7) 0 =
      gd (update_p [(10:ℝ)] [5]) 0 ∧
    gd (update_storage [(0:ℝ), 0, 0] (update_p [10] [5]) 1 7) (1 + 1) = 7 := by
  have h := pressure_ghost_buffer_invariant [(10:ℝ)] [5] [0, 0, 0] 1 7
    rfl rfl rfl (le_refl 1)
  exact ⟨⟨rfl, rfl, rfl, le_refl 1⟩, h.2.1, h.2.2⟩

/-!
## Boundary enforcement after the momentum solve (C6)
-/

lemma getD_map_range (f : ℕ → ℝ) {N i : ℕ} (h : i < N) :
    gd ((List.range N).map f) i = f i := by
  simp [gd, List.getD_eq_getElem?_getD, List.getElem?_map, List.getElem?_range h]

/-- The Dirichlet rows of an assembled system force the solution's first
entry: if c[0] = 0, b[0] ≠ 0 and d[0] = b[0]*v then x[0] = v. -/
lemma solveTridiagonal_dirichlet_first (a b c d : List ℝ) (v : ℝ)
    (hn : 2 ≤ b.length) (hc0 : gd c 0 = 0) (hb0 : gd b 0 ≠ 0)
    (hd0 : gd d 0 = gd b 0 * v) :
    gd (solveTridiagonal a b c d) 0 = v := by
  have hx0 := solveTridiagonal_step a b c d (show 0 < b.length - 1 by omega)
  have hcs : c_star a b c 0 = 0 := by
    show gd c 0 / gd b 0 = 0
    rw [hc0, zero_div]
  have hds : d_star a b c d 0 = v := by
    show gd d 0 / gd b 0 = v
    rw [hd0, mul_comm, mul_div_assoc, div_self hb0, mul_one]
  rw [hx0, hcs, hds, zero_mul, sub_zero]

/-- The Dirichlet rows of an assembled system force the solution's last
entry: if a[n-1] = 0, b[n-1] ≠ 0 and d[n-1] = b[n-1]*v then x[n-1] = v. -/
lemma solveTridiagonal_dirichlet_last (a b c d : List ℝ) (v : ℝ)
    (hn : 2 ≤ b.length) (haN : gd a (b.length - 1) = 0)
    (hbN : gd b (b.length - 1) ≠ 0)
    (hdN : gd d (b.length - 1) = gd b (b.length - 1) * v) :
    gd (solveTridiagonal a b c d) (b.length - 1) = v := by
  obtain ⟨m, hm⟩ : ∃ m, b.length = m + 2 := ⟨b.length - 2, by omega⟩
  have h21 : b.length - 1 = m + 1 := by omega
  have hlast := solveTridiagonal_last a b c d (by omega)
  rw [h21] at hlast haN hbN hdN
  rw [h21, hlast]
  show (gd d (m + 1) - gd a (m + 1) * d_star a b c d m) /
      (gd b (m + 1) - gd a (m + 1) * c_star a b c m) = v
  simp only [haN, hdN, zero_mul, sub_zero]
  rw [mul_comm, mul_div_assoc, div_self hbN, mul_one]

/-- The zero-gradient row of the SIMPLEC variant forces equality of the
last two solution entries: if a[n-1] = -1, b[n-1] = 1, d[n-1] = 0 and the
last pivot is nonzero then x[n-1] = x[n-2]. -/
lemma solveTridiagonal_zero_gradient_last (a b c d : List ℝ)
    (hn : 2 ≤ b.length) (haN : gd a (b.length - 1) = -1)
    (hbN : gd b (b.length - 1) = 1) (hdN : gd d (b.length - 1) = 0)
    (hpiv : pivot a b c (b.length - 1) ≠ 0) :
    gd (solveTridiagonal a b c d) (b.length - 1) =
      gd (solveTridiagonal a b c d) (b.length - 2) := by
  obtain ⟨m, hm⟩ : ∃ m, b.length = m + 2 := ⟨b.length - 2, by omega⟩
  have h21 : b.length - 1 = m + 1 := by omega
  have h22 : b.length - 2 = m := by omega
  have hlast := solveTridiagonal_last a b c d (by omega)
  have hstep := solveTridiagonal_step a b c d (show m < b.length - 1 by omega)
  rw [h21] at hlast haN hbN hdN hpiv
  have hpiv' : (1 : ℝ) + c_star a b c m ≠ 0 := by
    have : pivot a b c (m + 1) = gd b (m + 1) - gd a (m + 1) * c_star a b c m := rfl
    rw [this, haN, hbN] at hpiv
    intro hc
    apply hpiv
    linear_combination hc
  have hds : d_star a b c d (m + 1) = d_star a b c d m / (1 + c_star a b c m) := by
    show (gd d (m + 1) - gd a (m + 1) * d_star a b c d m) /
        (gd b (m + 1) - gd a (m + 1) * c_star a b c m) = _
    rw [haN, hbN, hdN]
    ring_nf
  rw [h21, h22, hlast, hds, hstep, hlast, hds]
  field_simp
  ring

/-- C6.  After the momentum-predictor solve of PISO.cpp, the velocity
satisfies the Dirichlet boundary rows exactly: u[0] = u_inlet and
u[N-1] = u_outlet (whenever the assembled boundary diagonals are nonzero),
and in the zero-gradient variant of the SIMPLEC source, whose last row is
a[N-1] = -1, b[N-1] = 1, d[N-1] = 0, the solved velocity satisfies
u[N-1] = u[N-2] exactly (whenever the last pivot is nonzero). -/
theorem momentum_boundary_enforcement :
    (∀ (P : PisoParams) (T : List ℝ) (s : PisoState), 2 ≤ P.N →
      mom_b0 P T ≠ 0 → mom_bN P T ≠ 0 →
      gd (momentum_predictor P T s).u 0 = P.u_inlet ∧
      gd (momentum_predictor P T s).u (P.N - 1) = P.u_outlet) ∧
    (∀ (a b c d : List ℝ) (v : ℝ), 2 ≤ b.length →
      gd b 0 = 1 → gd c 0 = 0 → gd d 0 = v →
      gd a (b.length - 1) = -1 → gd b (b.length - 1) = 1 →
      gd d (b.length - 1) = 0 → pivot a b c (b.length - 1) ≠ 0 →
      gd (solveTridiagonal a b c d) 0 = v ∧
      gd (solveTridiagonal a b c d) (b.length - 1) =
        gd (solveTridiagonal a b c d) (b.length - 2)) := by
  constructor
  · intro P T s hN hb0 hbN
    have hlenb : (mom_bU P T s.u s.bU s.pstorage).length = P.N := by
      simp [mom_bU]
    have hgb0 : gd (mom_bU P T s.u s.bU s.pstorage) 0 = mom_b0 P T := by
      rw [mom_bU, getD_map_range _ (show 0 < P.N by omega)]
      simp [show 0 ≠ P.N - 1 by omega]
    have hgc0 : gd (mom_cU P T s.u s.bU s.pstorage) 0 = 0 := by
      rw [mom_cU, getD_map_range _ (show 0 < P.N by omega)]
      simp
    have hgd0 : gd (mom_dU P T s.u s.bU s.pstorage s.p) 0 = mom_b0 P T * P.u_inlet := by
      rw [mom_dU, getD_map_range _ (show 0 < P.N by omega)]
      simp [show 0 ≠ P.N - 1 by omega]
    have hgaN : gd (mom_aU P T s.u s.bU s.pstorage) (P.N - 1) = 0 := by
      rw [mom_aU, getD_map_range _ (show P.N - 1 < P.N by omega)]
      simp
    have hgbN : gd (mom_bU P T s.u s.bU s.pstorage) (P.N - 1) = mom_bN P T := by
      rw [mom_bU, getD_map_range _ (show P.N - 1 < P.N by omega)]
      simp
    have hgdN : gd (mom_dU P T s.u s.bU s.pstorage s.p) (P.N - 1) =
        mom_bN P T * P.u_outlet := by
      rw [mom_dU, getD_map_range _ (show P.N - 1 < P.N by omega)]
      simp
    constructor
    · exact solveTridiagonal_dirichlet_first _ _ _ _ _ (by omega) hgc0
        (by rw [hgb0]; exact hb0) (by rw [hgd0, hgb0])
    · have := solveTridiagonal_dirichlet_last
        (mom_aU P T s.u s.bU s.pstorage) (mom_bU P T s.u s.bU s.pstorage)
        (mom_cU P T s.u s.bU s.pstorage) (mom_dU P T s.u s.bU s.pstorage s.p)
        P.u_outlet (by omega) (by rw [hlenb]; exact hgaN)
        (by rw [hlenb, hgbN]; exact hbN) (by rw [hlenb, hgdN, hgbN])
      rw [hlenb] at this
      exact this
  · intro a b c d v hn hb0 hc0 hd0 haN hbN hdN hpiv
    refine ⟨?_, solveTridiagonal_zero_gradient_last a b c d hn haN hbN hdN hpiv⟩
    apply solveTridiagonal_dirichlet_first a b c d v hn hc0
    · rw [hb0]; exact one_ne_zero
    · rw [hb0, hd0, one_mul]

/-- Unit-constant parameters with constant property functions, used to
instantiate the solver theorems at concrete inputs. -/
noncomputable def unitParams : PisoParams :=
  { N := 2, dz := 1, dt := 1, K := 1, CF := 0, rc := 1,
    u_inlet := 5, u_outlet := 7, p_outlet := 7, tol := 1e-8,
    tot_iter := 200, corr_iter := 2,
    rho := fun _ => 1, mu := fun _ => 1, kcond := fun _ => 1, cp := fun _ => 1,
    Sm := [], Su := [], St := [] }

/-- A concrete two-cell solver state. -/
def unitState : PisoState :=
  { u := [0, 0], p := [0, 0], pstorage := [0, 0, 0, 0], bU := [1, 1],
    maxErr := 1, iter := 0 }

/-- C6 witness: boundary enforcement at the two-cell unit configuration
(Dirichlet values 5 and 7) and at the concrete zero-gradient system
a = [0,-1], b = [1,1], c = [0,0], d = [3,0]. -/
theorem momentum_boundary_enforcement_witness :
    (2 ≤ unitParams.N ∧ mom_b0 unitParams [300, 300] ≠ 0 ∧
      mom_bN unitParams [300, 300] ≠ 0 ∧
      pivot [(0:ℝ), -1] [1, 1] [0, 0] ([(1:ℝ), 1].length - 1) ≠ 0) ∧
    gd (momentum_predictor unitParams [300, 300] unitState).u 0 = unitParams.u_inlet ∧
    gd (momentum_predictor unitParams [300, 300] unitState).u (unitParams.N - 1) =
      unitParams.u_outlet ∧
    gd (solveTridiagonal [(0:ℝ), -1] [1, 1] [0, 0] [3, 0]) 0 = 3 ∧
    gd (solveTridiagonal [(0:ℝ), -1] [1, 1] [0, 0] [3, 0]) ([(1:ℝ), 1].length - 1) =
      gd (solveTridiagonal [(0:ℝ), -1] [1, 1] [0, 0] [3, 0]) ([(1:ℝ), 1].length - 2) := by
  have hb0 : mom_b0 unitParams [300, 300] ≠ 0 := by
    norm_num [mom_b0, unitParams, gd]
  have hbN : mom_bN unitParams [300, 300] ≠ 0 := by
    norm_num [mom_bN, unitParams, gd]
  have hpv : pivot [(0:ℝ), -1] [1, 1] [0, 0] ([(1:ℝ), 1].length - 1) ≠ 0 := by
    show gd [(1:ℝ), 1] 1 - gd [(0:ℝ), -1] 1 * c_star [(0:ℝ), -1] [1, 1] [0, 0] 0 ≠ 0
    show gd [(1:ℝ), 1] 1 - gd [(0:ℝ), -1] 1 *
      (gd [(0:ℝ), 0] 0 / gd [(1:ℝ), 1] 0) ≠ 0
    norm_num [gd]
  have h1 := momentum_boundary_enforcement.1 unitParams [300, 300] unitState
    (by norm_num [unitParams]) hb0 hbN
  have h2 := momentum_boundary_enforcement.2 [(0:ℝ), -1] [1, 1] [0, 0] [3, 0] 3
    (by norm_num) (by norm_num [gd]) (by norm_num [gd]) (by norm_num [gd])
    (by norm_num [gd]) (by norm_num [gd]) (by norm_num [gd]) hpv
  exact ⟨⟨by norm_num [unitParams], hb0, hbN, hpv⟩, h1.1, h1.2, h2.1, h2.2⟩

/-!
## Momentum assembly coefficients (C3)

The momentum predictor of PISO.cpp computes its diffusive conductances
from the viscosity average, D_l = 0.5*(mu_P + mu_L)/dz; the momentum
predictor of the unnamed translation unit computes them from the density
average, D_l = 0.5*(rho_P + rho_L)/dz, while using the viscosity only in
the Darcy and Forchheimer terms.  The interior sub-diagonal of the latter
is embedded to exhibit the difference.
-/

/-- Interior momentum sub-diagonal of the unnamed translation unit:
aU[i] = -max(F_l, 0) - D_l with D_l the density average over dz. -/
noncomputable def p000_mom_aU_int (P : PisoParams) (T u bU pst : List ℝ) (i : ℕ) : ℝ :=
  -max (F_l P T u bU pst i) 0 - 0.5 * (P.rho (gd T i) + P.rho (gd T (i - 1))) / P.dz

/-- Parameters carrying the actual liquid-sodium correlations on a
three-cell grid with unit spacing. -/
noncomputable def sodiumParams : PisoParams :=
  { N := 3, dz := 1, dt := 1, K := 1, CF := 0, rc := 1,
    u_inlet := 0, u_outlet := 0, p_outlet := 0, tol := 1e-8,
    tot_iter := 200, corr_iter := 2,
    rho := rhoVal, mu := muVal, kcond := kVal, cp := cpVal,
    Sm := [0, 0, 0], Su := [0, 0, 0], St := [0, 0, 0] }

/-- C3.  In the momentum predictor of PISO.cpp every interior row is
exactly the claimed upwind/diffusive/Darcy/Forchheimer assembly with the
viscosity-average conductances D_l and D_r; and the momentum predictor of
the unnamed translation unit diverges from that formula: at the uniform
state T = 600 K, u = 0, uniform pressure, its sub-diagonal uses the
density average and differs from the viscosity-average value. -/
theorem momentum_assembly_coefficients :
    (∀ (P : PisoParams) (T u bU pst p : List ℝ) (i : ℕ), 1 ≤ i → i < P.N - 1 →
      gd (mom_aU P T u bU pst) i =
        -max (F_l P T u bU pst i) 0 -
          0.5 * (P.mu (gd T i) + P.mu (gd T (i - 1))) / P.dz ∧
      gd (mom_cU P T u bU pst) i =
        max (-F_r P T u bU pst i) 0 -
          0.5 * (P.mu (gd T i) + P.mu (gd T (i + 1))) / P.dz ∧
      gd (mom_bU P T u bU pst) i =
        (max (F_r P T u bU pst i) 0 - max (-F_l P T u bU pst i) 0) +
          P.rho (gd T i) * P.dz / P.dt +
          0.5 * (P.mu (gd T i) + P.mu (gd T (i - 1))) / P.dz +
          0.5 * (P.mu (gd T i) + P.mu (gd T (i + 1))) / P.dz +
          P.mu (gd T i) / P.K * P.dz +
          P.CF * P.mu (gd T i) * P.dz / Real.sqrt P.K * |gd u i| ∧
      gd (mom_dU P T u bU pst p) i =
        -0.5 * (gd p (i + 1) - gd p (i - 1)) +
          P.rho (gd T i) * gd u i * P.dz / P.dt + gd P.Su i * P.dz) ∧
    p000_mom_aU_int sodiumParams [600, 600, 600] [0, 0, 0] [1, 1, 1] [0, 0, 0, 0, 0] 1 ≠
      -max (F_l sodiumParams [600, 600, 600] [0, 0, 0] [1, 1, 1] [0, 0, 0, 0, 0] 1) 0 -
        0.5 * (sodiumParams.mu (gd [600, 600, 600] 1) +
          sodiumParams.mu (gd [600, 600, 600] 0)) / sodiumParams.dz := by
  constructor
  · intro P T u bU pst p i h1 h2
    refine ⟨?_, ?_, ?_, ?_⟩
    · rw [mom_aU, getD_map_range _ (by omega), if_neg (by omega), if_neg (by omega)]
      rfl
    · rw [mom_cU, getD_map_range _ (by omega), if_neg (by omega), if_neg (by omega)]
      rfl
    · rw [mom_bU, getD_map_range _ (by omega), if_neg (by omega), if_neg (by omega)]
      rfl
    · rw [mom_dU, getD_map_range _ (by omega), if_neg (by omega), if_neg (by omega)]
      rfl
  · intro h
    rw [p000_mom_aU_int] at h
    have e1 : sodiumParams.rho = rhoVal := rfl
    have e2 : sodiumParams.mu = muVal := rfl
    have e3 : sodiumParams.dz = 1 := rfl
    have e4 : gd [(600:ℝ), 600, 600] 1 = 600 := rfl
    have e5 : gd [(600:ℝ), 600, 600] 0 = 600 := rfl
    rw [e1, e2, e3, e4, e5] at h
    have h1 := rhoVal_600_gt
    have h2 := muVal_600_lt_one
    linarith

/-!
## Control flow of the inner PISO loop (C2, C4, C9)

The stages of a timestep are instrumented with an event trace: the
momentum region assembles and solves, each corrector round assembles the
continuity matrix, solves it and updates the fields, and the temperature
region assembles and solves once per timestep.
-/

/-- Observable solver stage of one timestep. -/
inductive PisoEvent
  | assembleMomentum
  | solveMomentum
  | assembleContinuity
  | solveContinuity
  | updateFields
  | assembleEnergy
  | solveEnergy
deriving DecidableEq

/-- Events of the momentum-predictor region. -/
def momentum_trace : List PisoEvent :=
  [PisoEvent.assembleMomentum, PisoEvent.solveMomentum]

/-- Events of one corrector round. -/
def round_trace : List PisoEvent :=
  [PisoEvent.assembleContinuity, PisoEvent.solveContinuity, PisoEvent.updateFields]

/-- One iteration of the inner loop with its event trace: the momentum
region, then the for-loop of corr_iter corrector rounds, then iter++. -/
noncomputable def body_traced (P : PisoParams) (T : List ℝ) (s : PisoState) :
    PisoState × List PisoEvent :=
  let r := (List.range P.corr_iter).foldl
    (fun acc _ => (corrector_round P T acc.1, acc.2 ++ round_trace))
    (momentum_predictor P T s, momentum_trace)
  ({ r.1 with iter := r.1.iter + 1 }, r.2)

/-- The inner while loop with its event trace. -/
noncomputable def piso_loop_traced (P : PisoParams) (T : List ℝ) :
    ℕ → PisoState → PisoState × List PisoEvent
  | 0, s => (s, [])
  | f + 1, s =>
      if piso_guard P s then
        ((piso_loop_traced P T f (body_traced P T s).1).1,
          (body_traced P T s).2 ++ (piso_loop_traced P T f (body_traced P T s).1).2)
      else (s, [])

lemma corr_fold (P : PisoParams) (T : List ℝ) (k : ℕ) (s0 : PisoState)
    (t0 : List PisoEvent) :
    (List.range k).foldl
        (fun acc _ => (corrector_round P T acc.1, acc.2 ++ round_trace)) (s0, t0) =
      ((corrector_round P T)^[k] s0, t0 ++ (List.replicate k round_trace).flatten) := by
  induction k with
  | zero => simp
  | succ n ih =>
      rw [List.range_succ, List.foldl_append, ih]
      simp [Function.iterate_succ_apply', List.replicate_succ', List.append_assoc]

lemma body_traced_fst (P : PisoParams) (T : List ℝ) (s : PisoState) :
    (body_traced P T s).1 = inner_body P T s := by
  rw [body_traced, inner_body, corr_fold]

lemma body_traced_snd (P : PisoParams) (T : List ℝ) (s : PisoState) :
    (body_traced P T s).2 =
      momentum_trace ++ (List.replicate P.corr_iter round_trace).flatten := by
  rw [body_traced, corr_fold]

lemma iterate_round_iter (P : PisoParams) (T : List ℝ) (k : ℕ) (s : PisoState) :
    ((corrector_round P T)^[k] s).iter = s.iter := by
  induction k generalizing s with
  | zero => rfl
  | succ n ih => rw [Function.iterate_succ_apply]; exact ih (corrector_round P T s)

lemma inner_body_iter (P : PisoParams) (T : List ℝ) (s : PisoState) :
    (inner_body P T s).iter = s.iter + 1 := by
  show ((corrector_round P T)^[P.corr_iter] (momentum_predictor P T s)).iter + 1
    = s.iter + 1
  rw [iterate_round_iter]
  rfl

lemma piso_loop_traced_fst (P : PisoParams) (T : List ℝ) (f : ℕ) (s : PisoState) :
    (piso_loop_traced P T f s).1 = piso_loop P T f s := by
  induction f generalizing s with
  | zero => rfl
  | succ n ih =>
      rw [piso_loop_traced, piso_loop]
      by_cases h : piso_guard P s
      · rw [if_pos h, if_pos h, body_traced_fst]
        exact ih (inner_body P T s)
      · rw [if_neg h, if_neg h]

lemma piso_loop_traced_stopped (P : PisoParams) (T : List ℝ) (g : ℕ) (s : PisoState)
    (h : ¬ piso_guard P s) : piso_loop_traced P T g s = (s, []) := by
  cases g with
  | zero => rfl
  | succ n => rw [piso_loop_traced, if_neg h]

/-- The fuel parameter of the loop embedding is irrelevant once it covers
the remaining iteration budget: the while loop has a well-defined result. -/
lemma piso_loop_traced_fuel (P : PisoParams) (T : List ℝ) (f g : ℕ) (s : PisoState)
    (hfg : f ≤ g) (hf : P.tot_iter ≤ s.iter + f) :
    piso_loop_traced P T f s = piso_loop_traced P T g s := by
  induction f generalizing s g with
  | zero =>
      have hng : ¬ piso_guard P s := by
        intro hg
        exact absurd hg.1 (by omega)
      rw [piso_loop_traced_stopped P T 0 s hng, piso_loop_traced_stopped P T g s hng]
  | succ n ih =>
      obtain ⟨m, rfl⟩ : ∃ m, g = m + 1 := ⟨g - 1, by omega⟩
      rw [piso_loop_traced, piso_loop_traced]
      by_cases h : piso_guard P s
      · rw [if_pos h, if_pos h,
          ih m (body_traced P T s).1 (by omega)
            (by rw [body_traced_fst, inner_body_iter]; omega)]
      · rw [if_neg h, if_neg h]

lemma count_round_flatten (k : ℕ) :
    List.count PisoEvent.solveMomentum ((List.replicate k round_trace).flatten) = 0 := by
  induction k with
  | zero => rfl
  | succ n ih =>
      rw [List.replicate_succ, List.flatten_cons, List.count_append, ih]
      rfl

lemma count_energy_round_flatten (k : ℕ) :
    List.count PisoEvent.solveEnergy ((List.replicate k round_trace).flatten) = 0 := by
  induction k with
  | zero => rfl
  | succ n ih =>
      rw [List.replicate_succ, List.flatten_cons, List.count_append, ih]
      rfl

lemma count_body_momentum (P : PisoParams) (T : List ℝ) (s : PisoState) :
    List.count PisoEvent.solveMomentum (body_traced P T s).2 = 1 := by
  rw [body_traced_snd, List.count_append, count_round_flatten P.corr_iter]
  rfl

lemma count_body_energy (P : PisoParams) (T : List ℝ) (s : PisoState) :
    List.count PisoEvent.solveEnergy (body_traced P T s).2 = 0 := by
  rw [body_traced_snd, List.count_append, count_energy_round_flatten P.corr_iter]
  rfl

/-- The loop performs at most its remaining budget of momentum solves. -/
lemma count_loop_momentum (P : PisoParams) (T : List ℝ) (f : ℕ) (s : PisoState)
    (h : s.iter ≤ P.tot_iter) :
    List.count PisoEvent.solveMomentum (piso_loop_traced P T f s).2 ≤
      P.tot_iter - s.iter := by
  induction f generalizing s with
  | zero => simp [piso_loop_traced]
  | succ n ih =>
      rw [piso_loop_traced]
      by_cases hg : piso_guard P s
      · rw [if_pos hg]
        simp only [List.count_append, count_body_momentum]
        have h2 : (body_traced P T s).1.iter = s.iter + 1 := by
          rw [body_traced_fst, inner_body_iter]
        have h3 := ih (body_traced P T s).1 (by rw [h2]; exact hg.1)
        rw [h2] at h3
        have h4 : s.iter < P.tot_iter := hg.1
        omega
      · rw [if_neg hg]
        simp

lemma count_loop_energy (P : PisoParams) (T : List ℝ) (f : ℕ) (s : PisoState) :
    List.count PisoEvent.solveEnergy (piso_loop_traced P T f s).2 = 0 := by
  induction f generalizing s with
  | zero => rfl
  | succ n ih =>
      rw [piso_loop_traced]
      by_cases hg : piso_guard P s
      · rw [if_pos hg]
        simp only [List.count_append, count_body_energy, ih]
      · rw [if_neg hg]
        rfl

/-!
## The temperature (energy) stage and the full timestep (C4)
-/

/-- Upwind convective coefficient C_l = F_l * cp_l of the energy equation. -/
noncomputable def temp_C_l (P : PisoParams) (T u bU pst : List ℝ) (i : ℕ) : ℝ :=
  F_l P T u bU pst i *
    (if 0 ≤ u_l_face P u bU pst i then P.cp (gd T (i - 1)) else P.cp (gd T i))

/-- Upwind convective coefficient C_r = F_r * cp_r of the energy equation. -/
noncomputable def temp_C_r (P : PisoParams) (T u bU pst : List ℝ) (i : ℕ) : ℝ :=
  F_r P T u bU pst i *
    (if 0 ≤ u_r_face P u bU pst i then P.cp (gd T i) else P.cp (gd T (i + 1)))

/-- The temperature calculator of PISO.cpp: assemble the energy matrix
(conductivity-average diffusion, upwind convection weighted by upwind
specific heat, backward-Euler transient referencing T_old) with the
zero-gradient boundary rows, and solve. -/
noncomputable def temperature_step (P : PisoParams) (T Told : List ℝ) (s : PisoState) :
    List ℝ :=
  solveTridiagonal
    ((List.range P.N).map fun i =>
      if i = P.N - 1 then -1 else if i = 0 then 0
      else -(0.5 * (P.kcond (gd T i) + P.kcond (gd T (i - 1))) / P.dz) -
        max (temp_C_l P T s.u s.bU s.pstorage i) 0)
    ((List.range P.N).map fun i =>
      if i = P.N - 1 then 1 else if i = 0 then 1
      else (max (temp_C_r P T s.u s.bU s.pstorage i) 0 -
          max (-temp_C_l P T s.u s.bU s.pstorage i) 0) +
        0.5 * (P.kcond (gd T i) + P.kcond (gd T (i - 1))) / P.dz +
        0.5 * (P.kcond (gd T i) + P.kcond (gd T (i + 1))) / P.dz +
        P.rho (gd T i) * P.cp (gd T i) * P.dz / P.dt)
    ((List.range P.N).map fun i =>
      if i = P.N - 1 then 0 else if i = 0 then -1
      else -(0.5 * (P.kcond (gd T i) + P.kcond (gd T (i + 1))) / P.dz) +
        max (-temp_C_r P T s.u s.bU s.pstorage i) 0)
    ((List.range P.N).map fun i =>
      if i = P.N - 1 then 0 else if i = 0 then 0
      else P.rho (gd T i) * P.cp (gd T i) * P.dz / P.dt * gd Told i + gd P.St i * P.dz)

/-- One whole timestep of PISO.cpp with its event trace: back up the old
temperature, run the inner loop from iter = 0 and maxErr = 1 with the
budget tot_iter as fuel, then assemble and solve the energy equation once
with whatever fields the loop left behind. -/
noncomputable def timestep_traced (P : PisoParams) (T : List ℝ) (s : PisoState) :
    (PisoState × List ℝ) × List PisoEvent :=
  (((piso_loop_traced P T P.tot_iter { s with iter := 0, maxErr := 1 }).1,
      temperature_step P T T
        (piso_loop_traced P T P.tot_iter { s with iter := 0, maxErr := 1 }).1),
    (piso_loop_traced P T P.tot_iter { s with iter := 0, maxErr := 1 }).2 ++
      [PisoEvent.assembleEnergy, PisoEvent.solveEnergy])

/-- C4.  In every timestep the inner pressure-velocity loop performs at
most tot_iter iterations (momentum solves) and exits without any failure
path; the energy system is then assembled and solved exactly once, on the
fields the loop left behind, identically whether or not the loop exited
converged; and the fuel-indexed embedding of the while loop is stable at
fuel tot_iter, so the loop's result is its genuine fixpoint. -/
theorem timestep_budget_and_single_energy_solve (P : PisoParams) (T : List ℝ)
    (s : PisoState) :
    List.count PisoEvent.solveMomentum (timestep_traced P T s).2 ≤ P.tot_iter ∧
    List.count PisoEvent.solveEnergy (timestep_traced P T s).2 = 1 ∧
    (timestep_traced P T s).1.2 =
      temperature_step P T T (piso_loop P T P.tot_iter { s with iter := 0, maxErr := 1 }) ∧
    (∀ g, P.tot_iter ≤ g →
      piso_loop_traced P T g { s with iter := 0, maxErr := 1 } =
        piso_loop_traced P T P.tot_iter { s with iter := 0, maxErr := 1 }) := by
  refine ⟨?_, ?_, ?_, ?_⟩
  · rw [timestep_traced]
    simp only [List.count_append]
    have h1 := count_loop_momentum P T P.tot_iter { s with iter := 0, maxErr := 1 }
      (by simp)
    have h2 : List.count PisoEvent.solveMomentum
        [PisoEvent.assembleEnergy, PisoEvent.solveEnergy] = 0 := rfl
    simp only [h2] at *
    omega
  · rw [timestep_traced]
    simp only [List.count_append, count_loop_energy]
    rfl
  · rw [timestep_traced, piso_loop_traced_fst]
  · intro g hg
    exact (piso_loop_traced_fuel P T P.tot_iter g { s with iter := 0, maxErr := 1 }
      hg (by simp)).symm

/-!
## The inner loop's guard and iteration structure (C2)
-/

/-- C2 counterexample: a concrete loop state whose residual equals the
tolerance exactly.  The claimed continuation condition maxErr >= tol (with
iteration budget remaining) holds, yet the loop performs no further
iteration: its guard is the strict maxErr > tol, so the emitted trace is
empty. -/
theorem piso_guard_counterexample :
    ((unitState.iter < unitParams.tot_iter ∧
        unitParams.tol ≤ ({ unitState with maxErr := 1e-8 } : PisoState).maxErr) ∧
      (piso_loop_traced unitParams [300, 300] 200
        { unitState with maxErr := 1e-8 }).2 = []) := by
  constructor
  · constructor
    · show (0:ℕ) < 200
      norm_num
    · exact le_refl (1e-8 : ℝ)
  · have hng : ¬ piso_guard unitParams { unitState with maxErr := 1e-8 } := by
      intro hg
      have h2 : (1e-8 : ℝ) < 1e-8 := hg.2
      exact absurd h2 (lt_irrefl _)
    rw [piso_loop_traced_stopped unitParams [300, 300] 200 _ hng]

/-- C2 amended: every iteration of the inner loop emits exactly one
momentum assembly and solve followed by exactly corr_iter rounds of
continuity assembly, continuity solve and field update; and a further
iteration is started if and only if maxErr is STRICTLY greater than tol
and fewer than tot_iter iterations have run (the claim's "greater than or
equal" fails at maxErr = tol, see the counterexample). -/
theorem piso_loop_iteration_structure (P : PisoParams) (T : List ℝ) (s : PisoState)
    (f : ℕ) :
    (body_traced P T s).2 =
      momentum_trace ++ (List.replicate P.corr_iter round_trace).flatten ∧
    ((piso_loop_traced P T (f + 1) s).2 ≠ [] ↔
      (s.iter < P.tot_iter ∧ P.tol < s.maxErr)) ∧
    ((s.iter < P.tot_iter ∧ P.tol < s.maxErr) →
      piso_loop_traced P T (f + 1) s =
        ((piso_loop_traced P T f (inner_body P T s)).1,
          (body_traced P T s).2 ++ (piso_loop_traced P T f (inner_body P T s)).2)) ∧
    (¬ (s.iter < P.tot_iter ∧ P.tol < s.maxErr) →
      piso_loop_traced P T (f + 1) s = (s, [])) := by
  have hbody : (body_traced P T s).2 ≠ [] := by
    rw [body_traced_snd]
    intro h
    exact absurd (congrArg List.length h) (by simp [momentum_trace])
  refine ⟨body_traced_snd P T s, ?_, ?_, ?_⟩
  · constructor
    · intro h
      by_contra hg
      rw [piso_loop_traced_stopped P T (f + 1) s hg] at h
      exact h rfl
    · intro hg
      have hg' : piso_guard P s := hg
      rw [piso_loop_traced, if_pos hg']
      intro h
      exact hbody (List.append_eq_nil.mp h).1
  · intro hg
    have hg' : piso_guard P s := hg
    rw [piso_loop_traced, if_pos hg', body_traced_fst]
  · intro hg
    exact piso_loop_traced_stopped P T (f + 1) s hg

/-- C2 witness: the loop-structure theorem at the unit configuration, with
the per-iteration trace spelled out for corr_iter = 2 and the stopped case
at residual 0. -/
theorem piso_loop_iteration_structure_witness :
    (body_traced unitParams [300, 300] unitState).2 =
      momentum_trace ++ (List.replicate unitParams.corr_iter round_trace).flatten ∧
    piso_loop_traced unitParams [300, 300] 1 { unitState with maxErr := 0 } =
      ({ unitState with maxErr := 0 }, []) := by
  have h := piso_loop_iteration_structure unitParams [300, 300] unitState 0
  have h2 := piso_loop_iteration_structure unitParams [300, 300]
    { unitState with maxErr := 0 } 0
  refine ⟨h.1, h2.2.2.2 ?_⟩
  intro hg
  have h3 : unitParams.tol < (0:ℝ) := hg.2
  have h4 : (0:ℝ) < unitParams.tol := by norm_num [unitParams]
  linarith

/-!
## The convergence residual (C9)
-/

lemma corrector_round_maxErr (P : PisoParams) (T : List ℝ) (x : PisoState) :
    (corrector_round P T x).maxErr =
      interior_max_err P.N (corrector_round P T x).u x.u := rfl

/-- C9.  After one inner-loop iteration the residual the guard reads is
exactly the interior maximum velocity change of the final corrector round
alone: maxErr is reset to zero at the start of every round, so the
momentum solve and all earlier rounds contribute nothing, and the incoming
maxErr is irrelevant. -/
theorem residual_is_last_round_change (P : PisoParams) (T : List ℝ) (s : PisoState)
    (h : 1 ≤ P.corr_iter) :
    (inner_body P T s).maxErr =
      interior_max_err P.N
        (corrector_round P T
          ((corrector_round P T)^[P.corr_iter - 1] (momentum_predictor P T s))).u
        ((corrector_round P T)^[P.corr_iter - 1] (momentum_predictor P T s)).u ∧
    ∀ r : ℝ, (inner_body P T { s with maxErr := r }).maxErr =
      (inner_body P T s).maxErr := by
  have hk : P.corr_iter = (P.corr_iter - 1) + 1 := by omega
  constructor
  · show ((corrector_round P T)^[P.corr_iter] (momentum_predictor P T s)).maxErr = _
    rw [hk, Function.iterate_succ_apply']
    exact corrector_round_maxErr P T _
  · intro r
    show ((corrector_round P T)^[P.corr_iter]
        (momentum_predictor P T { s with maxErr := r })).maxErr =
      ((corrector_round P T)^[P.corr_iter] (momentum_predictor P T s)).maxErr
    have h1 : momentum_predictor P T { s with maxErr := r } =
        { momentum_predictor P T s with maxErr := r } := rfl
    have h2 : corrector_round P T { momentum_predictor P T s with maxErr := r } =
        corrector_round P T (momentum_predictor P T s) := rfl
    rw [hk, Function.iterate_succ_apply, Function.iterate_succ_apply, h1, h2]

/-- C9 witness: the residual theorem applied at the unit configuration
(corr_iter = 2). -/
theorem residual_is_last_round_change_witness :
    (1 ≤ unitParams.corr_iter) ∧
    (inner_body unitParams [300, 300] unitState).maxErr =
      interior_max_err unitParams.N
        (corrector_round unitParams [300, 300]
          ((corrector_round unitParams [300, 300])^[unitParams.corr_iter - 1]
            (momentum_predictor unitParams [300, 300] unitState))).u
        ((corrector_round unitParams [300, 300])^[unitParams.corr_iter - 1]
          (momentum_predictor unitParams [300, 300] unitState)).u ∧
    (inner_body unitParams [300, 300] { unitState with maxErr := 42 }).maxErr =
      (inner_body unitParams [300, 300] unitState).maxErr := by
  have hc : 1 ≤ unitParams.corr_iter := by norm_num [unitParams]
  have h := residual_is_last_round_change unitParams [300, 300] unitState hc
  exact ⟨hc, h.1, h.2 42⟩

/-!
## The output region (C8)

Each `fout << v << ", "` of the output region emits one numeric token and
each `fout << "\n\n"` emits one separator token.  In the source the two
separator writes sit after the closing brace of their `if (it == t_iter-1)`
guards, so they execute at every timestep.
-/

/-- One token written to the output stream. -/
inductive OutTok
  | num (x : ℝ)
  | sep

/-- The output region of one timestep of PISO.cpp: the three profile loops
are guarded by it = t_iter - 1, the two separator writes are not. -/
def output_step (t_iter it : ℕ) (u p T : List ℝ) : List OutTok :=
  (if it = t_iter - 1 then u.map OutTok.num else []) ++ [OutTok.sep] ++
    (if it = t_iter - 1 then p.map OutTok.num else []) ++ [OutTok.sep] ++
    (if it = t_iter - 1 then T.map OutTok.num else [])

/-- C8.  The output region writes the numeric profiles only at the final
timestep, but it does write at the other timesteps too: every non-final
timestep appends exactly the two paragraph separators to the stream, so
the stream content is NOT unchanged there.  At the concrete run values
t_iter = 10000, it = 0, the emitted tokens are the two separators (a
nonempty write), while at it = 9999 the three profiles are serialized. -/
theorem output_nonfinal_timestep_writes :
    (∀ (tI it : ℕ) (u p T : List ℝ), it ≠ tI - 1 →
      output_step tI it u p T = [OutTok.sep, OutTok.sep]) ∧
    output_step 10000 0 [1] [2] [3] = [OutTok.sep, OutTok.sep] ∧
    output_step 10000 0 [1] [2] [3] ≠ [] ∧
    output_step 10000 9999 [1] [2] [3] =
      [OutTok.num 1, OutTok.sep, OutTok.num 2, OutTok.sep, OutTok.num 3] := by
  refine ⟨?_, ?_, ?_, ?_⟩
  · intro tI it u p T h
    simp [output_step, h]
  · simp [output_step]
  · simp [output_step]
  · simp [output_step]

/-!
## The mass source and sink initialization (C10)

The initialization loop of the unnamed unit (and of PISO.cpp) writes the
per-cell mass source: +1.0 on the first floor(0.2*N) interior cells,
-1.0 on the cells from N - floor(0.2*N) up to N-2, 0 elsewhere.  The
double values 0.0 and +-1.0 are exact, so the array is embedded over ℚ.
-/

/-- mass_source_nodes = floor(N * 0.2). -/
def mass_source_nodes (N : ℕ) : ℕ := Nat.floor ((N : ℚ) * 0.2)

/-- mass_sink_nodes = floor(N * 0.2). -/
def mass_sink_nodes (N : ℕ) : ℕ := Nat.floor ((N : ℚ) * 0.2)

/-- The mass-source array after the initialization loop
for (i = 1; i < N-1; ++i) with its two guarded assignments. -/
def Sm_init (N : ℕ) (i : ℕ) : ℚ :=
  if 1 ≤ i ∧ i < N - 1 then
    (if 0 < i ∧ i ≤ mass_source_nodes N then 1
     else if N - mass_sink_nodes N ≤ i ∧ i < N - 1 then -1 else 0)
  else 0

lemma sum_indicator_Icc (a b N : ℕ) (q : ℚ) (h : b < N) :
    ∑ i in Finset.range N, (if i ∈ Finset.Icc a b then q else 0) =
      (b + 1 - a : ℕ) • q := by
  rw [Finset.sum_ite_mem]
  rw [Finset.inter_eq_right.mpr (by
    intro x hx
    rw [Finset.mem_Icc] at hx
    rw [Finset.mem_range]
    omega)]
  rw [Finset.sum_const, Nat.card_Icc]

lemma mass_source_nodes_1000 : mass_source_nodes 1000 = 200 := by
  have h : ((1000 : ℕ) : ℚ) * 0.2 = 200 := by norm_num
  rw [mass_source_nodes, h]
  exact_mod_cast Nat.floor_natCast 200

lemma mass_source_nodes_100 : mass_source_nodes 100 = 20 := by
  have h : ((100 : ℕ) : ℚ) * 0.2 = 20 := by norm_num
  rw [mass_source_nodes, h]
  exact_mod_cast Nat.floor_natCast 20

lemma Sm_init_1000_eq (i : ℕ) :
    Sm_init 1000 i = (if i ∈ Finset.Icc 1 200 then (1:ℚ) else 0) +
      (if i ∈ Finset.Icc 800 998 then (-1:ℚ) else 0) := by
  have hm : mass_source_nodes 1000 = 200 := mass_source_nodes_1000
  have hk : mass_sink_nodes 1000 = 200 := mass_source_nodes_1000
  simp only [Sm_init, hm, hk, Finset.mem_Icc]
  split_ifs <;> first | (exfalso; omega) | norm_num

lemma Sm_init_100_eq (i : ℕ) :
    Sm_init 100 i = (if i ∈ Finset.Icc 1 20 then (1:ℚ) else 0) +
      (if i ∈ Finset.Icc 80 98 then (-1:ℚ) else 0) := by
  have hm : mass_source_nodes 100 = 20 := mass_source_nodes_100
  have hk : mass_sink_nodes 100 = 20 := mass_source_nodes_100
  simp only [Sm_init, hm, hk, Finset.mem_Icc]
  split_ifs <;> first | (exfalso; omega) | norm_num

/-- C10.  With mass_source_zone = mass_sink_zone = 0.2 the initialized
mass-source array has Sm[i] = +1 exactly on the floor(0.2*N) cells
1 <= i <= floor(0.2*N), Sm[i] = -1 exactly on the floor(0.2*N) - 1 cells
N - floor(0.2*N) <= i <= N-2, and 0 elsewhere; consequently the array sums
to +1 over the grid: the source and sink zones do not balance.  Stated for
both grids of the repository, N = 1000 and N = 100. -/
theorem mass_source_sink_imbalance :
    (∀ i : ℕ,
      (1 ≤ i ∧ i ≤ mass_source_nodes 1000 → Sm_init 1000 i = 1) ∧
      (1000 - mass_sink_nodes 1000 ≤ i ∧ i ≤ 998 → Sm_init 1000 i = -1) ∧
      (i = 0 ∨ (mass_source_nodes 1000 < i ∧ i < 1000 - mass_sink_nodes 1000) ∨
          999 ≤ i → Sm_init 1000 i = 0)) ∧
    mass_source_nodes 1000 = 200 ∧
    ∑ i in Finset.range 1000, Sm_init 1000 i = 1 ∧
    (∀ i : ℕ,
      (1 ≤ i ∧ i ≤ mass_source_nodes 100 → Sm_init 100 i = 1) ∧
      (100 - mass_sink_nodes 100 ≤ i ∧ i ≤ 98 → Sm_init 100 i = -1) ∧
      (i = 0 ∨ (mass_source_nodes 100 < i ∧ i < 100 - mass_sink_nodes 100) ∨
          99 ≤ i → Sm_init 100 i = 0)) ∧
    mass_source_nodes 100 = 20 ∧
    ∑ i in Finset.range 100, Sm_init 100 i = 1 := by
  have hm1000 := mass_source_nodes_1000
  have hm100 := mass_source_nodes_100
  refine ⟨?_, hm1000, ?_, ?_, hm100, ?_⟩
  · intro i
    have hk : mass_sink_nodes 1000 = 200 := mass_source_nodes_1000
    rw [hm1000, hk]
    refine ⟨?_, ?_, ?_⟩ <;>
      · intro h
        simp only [Sm_init_1000_eq i, Finset.mem_Icc]
        split_ifs <;> first | (exfalso; omega) | norm_num
  · rw [Finset.sum_congr rfl fun i _ => Sm_init_1000_eq i, Finset.sum_add_distrib,
      sum_indicator_Icc 1 200 1000 1 (by omega),
      sum_indicator_Icc 800 998 1000 (-1) (by omega)]
    norm_num
  · intro i
    have hk : mass_sink_nodes 100 = 20 := mass_source_nodes_100
    rw [hm100, hk]
    refine ⟨?_, ?_, ?_⟩ <;>
      · intro h
        simp only [Sm_init_100_eq i, Finset.mem_Icc]
        split_ifs <;> first | (exfalso; omega) | norm_num
  · rw [Finset.sum_congr rfl fun i _ => Sm_init_100_eq i, Finset.sum_add_distrib,
      sum_indicator_Icc 1 20 100 1 (by omega),
      sum_indicator_Icc 80 98 100 (-1) (by omega)]
    norm_num
